import Mathlib

/-!
Verification of the security-mas scan orchestration engine.

This file gives a shallow embedding of the repository code:
  * src/tools/sast_tool.py   (SemgrepScanner.scan_files)
  * src/tools/sca_tool.py    (SnykScanner.scan_dependencies)
  * src/mas_core/nodes.py    (scan_project_files, worker nodes, aggregator_node,
                              analyze_with_llm)
  * src/mas_core/graph.py    (create_scan_graph topology)
  * src/api_server/api_server.py (extract_codebase, run_scan_task, create_scan)

External effects (the spawned scanner processes, JSON parsing of their output,
the LLM call, the wall clock) are passed in as explicit oracle parameters, so
every definition is executable on concrete inputs.  Python dictionaries with a
fixed key set are modelled as structures; a key that some code path leaves out
is modelled as an Option field holding none.
-/

namespace SecurityMas

/-- Raw finding as emitted by an external tool: an unparsed JSON object.
Only its identity and the length of finding lists matter to the
orchestration code, so it is kept as its JSON text. -/
abbrev RawFinding := String

/-- Result dictionary returned by both scanner adapters
(docstrings in sast_tool.py and sca_tool.py).  `total_files` is present only
in Semgrep results; `vulnerabilities` is the documented findings key;
`vulnerability` is the misspelled key that the timeout and generic-exception
branches of SemgrepScanner.scan_files actually write. -/
structure ScanResultDict where
  tool : String
  total_files : Option Nat
  vulnerabilities : Option (List RawFinding)
  vulnerability : Option (List RawFinding)
  total_issues : Nat
  error : Option String
  deriving Repr, DecidableEq

/-- Outcome of one `subprocess.run` invocation with a 60s timeout:
the process completed with an exit code, stdout and stderr; or the timeout
expired (subprocess.TimeoutExpired); or the invocation itself raised
(for example OSError when the binary is missing). -/
inductive ProcOutcome where
  | completed (returncode : Int) (stdout : String) (stderr : String)
  | timeout
  | raised (msg : String)
  deriving Repr, DecidableEq

/-- Outcome of `json.loads(result.stdout).get("results", [])` in
SemgrepScanner.scan_files: either a findings list, or an exception during
parsing (JSONDecodeError, AttributeError on a non-dict, ...), which the
adapter catches with its generic `except Exception` branch. -/
inductive SemParse where
  | ok (vulns : List RawFinding)
  | exc (msg : String)
  deriving Repr, DecidableEq

/-- Outcome of parsing Snyk stdout in SnykScanner.scan_dependencies:
`json.loads` succeeded and `.get("vulnerabilities", [])` gave a list;
or `json.loads` raised JSONDecodeError (caught by the dedicated handler);
or some other exception escaped the inner try (caught by the outer
`except Exception`). -/
inductive SnykParse where
  | ok (vulns : List RawFinding)
  | decodeError
  | excOther (msg : String)
  deriving Repr, DecidableEq

/-- SemgrepScanner.scan_files (src/tools/sast_tool.py, lines 13-83).
`proc` is the outcome of the semgrep subprocess, `parse` the outcome of
JSON-decoding a given stdout text.  The Bool records whether the external
process was invoked (the body entered the try block that calls
subprocess.run).  The function is total: every Python branch returns a
dictionary, none raises to the caller. -/
def SemgrepScanner.scan_files (file_paths : List String)
    (proc : ProcOutcome) (parse : String → SemParse) :
    ScanResultDict × Bool :=
  if file_paths.isEmpty then
    ({ tool := "semgrep", total_files := some 0, vulnerabilities := some [],
       vulnerability := none, total_issues := 0, error := none }, false)
  else
    match proc with
    | .completed rc out err =>
      if rc = 0 ∨ rc = 1 then
        match parse out with
        | .ok vulns =>
          ({ tool := "semgrep", total_files := some file_paths.length,
             vulnerabilities := some vulns, vulnerability := none,
             total_issues := vulns.length, error := none }, true)
        | .exc m =>
          ({ tool := "semgrep", total_files := some file_paths.length,
             vulnerabilities := none, vulnerability := some [],
             total_issues := 0, error := some m }, true)
      else
        ({ tool := "semgrep", total_files := some file_paths.length,
           vulnerabilities := some [], vulnerability := none,
           total_issues := 0, error := some err }, true)
    | .timeout =>
      ({ tool := "semgrep", total_files := some file_paths.length,
         vulnerabilities := none, vulnerability := some [],
         total_issues := 0, error := some "Timeout after 60s" }, true)
    | .raised m =>
      ({ tool := "semgrep", total_files := some file_paths.length,
         vulnerabilities := none, vulnerability := some [],
         total_issues := 0, error := some m }, true)

mutual
/-- Filesystem directory tree: the files directly in a directory, and its
named subdirectories, both in the order os.scandir reports them (the order
os.walk iterates). -/
inductive FSTree where
  | mk (files : List String) (subdirs : FSDirs)

/-- List of named subdirectories of a directory. -/
inductive FSDirs where
  | nil
  | cons (dname : String) (child : FSTree) (rest : FSDirs)
end

/-- Python str.endswith, computed on the character list (code points, as in
Python) so that concrete instances reduce inside the kernel. -/
def strEndsWith (s post : String) : Bool :=
  post.data.isSuffixOf s.data

/-- Python str.split("/"), computed on the character list so that concrete
instances reduce inside the kernel. -/
def splitSlash (s : String) : List String :=
  (s.data.splitOn '/').map List.asString

/-- os.path.join for a relative second component, POSIX rules. -/
def osJoin (a b : String) : String :=
  if a = "" then b else if strEndsWith a "/" then a ++ b else a ++ "/" ++ b

/-- Fixed source-extension allow-list of scan_project_files
(src/mas_core/nodes.py, line 42). -/
def file_extensions : List String :=
  [".py", ".js", ".jsx", ".ts", ".tsx", ".java", ".php", ".go", ".rb"]

/-- Fixed directory exclusion set of scan_project_files
(src/mas_core/nodes.py, line 43). -/
def ignore_dirs : List String :=
  ["node_modules", ".git", "venv", ".venv", "__pycache__", "build", "dist"]

mutual
/-- One os.walk step of scan_project_files (src/mas_core/nodes.py,
lines 41-53): collect the files of the current directory whose name ends in
an allowed extension, joined onto the directory path, then recurse into the
non-excluded subdirectories in order.  The source prunes with
`dirs[:] = [d for d in dirs if d not in ignore_dirs]` before iterating;
skipping excluded names during iteration visits exactly the same
directories in the same order. -/
def walkScan (path : String) : FSTree → List String
  | .mk files subdirs =>
    ((files.filter fun f => file_extensions.any fun e => strEndsWith f e).map
      fun f => osJoin path f) ++ walkScanDirs path subdirs

/-- Walk the subdirectory list of one directory for walkScan. -/
def walkScanDirs (path : String) : FSDirs → List String
  | .nil => []
  | .cons d t rest =>
    (if ignore_dirs.contains d then [] else walkScan (osJoin path d) t) ++
      walkScanDirs path rest
end

/-- scan_project_files (src/mas_core/nodes.py, lines 41-53): os.walk from the
project root with directory pruning and extension filtering.  The tree
argument is the filesystem under project_path. -/
def scan_project_files (project_path : String) (tree : FSTree) : List String :=
  walkScan project_path tree

mutual
/-- The os.walk search of SnykScanner.scan_dependencies
(src/tools/sca_tool.py, lines 26-30): first directory in walk order whose
file list contains requirements.txt; returns the joined path of that
manifest.  No pruning is applied. -/
def walkFindReq (path : String) : FSTree → Option String
  | .mk files subdirs =>
    if files.contains "requirements.txt" then
      some (osJoin path "requirements.txt")
    else walkFindReqDirs path subdirs

/-- Walk the subdirectory list of one directory for walkFindReq. -/
def walkFindReqDirs (path : String) : FSDirs → Option String
  | .nil => none
  | .cons d t rest =>
    match walkFindReq (osJoin path d) t with
    | some p => some p
    | none => walkFindReqDirs path rest
end

/-- Whether `os.path.exists(os.path.join(project_path, "requirements.txt"))`
holds: the root directory has an entry of that name, whether a file or a
subdirectory. -/
def reqExistsAtRoot : FSTree → Bool
  | .mk files subdirs =>
    files.contains "requirements.txt" || dirNamed subdirs
where
  /-- Whether a subdirectory list contains a directory named
  requirements.txt. -/
  dirNamed : FSDirs → Bool
    | .nil => false
    | .cons d _ rest => d = "requirements.txt" || dirNamed rest

/-- Lines 39-95 of src/tools/sca_tool.py: run the snyk command against a
resolved manifest path and normalize the outcome.  Success is judged by
stdout alone: a completed process with nonempty, parseable stdout is a
success whatever its exit code; empty stdout takes the stderr (or a default
message) as the error; JSONDecodeError and any other exception are soft
errors; so are timeout and a raised invocation. -/
def snykRun (req_file : String) (proc : ProcOutcome)
    (parse : String → SnykParse) : ScanResultDict × Option String :=
  match proc with
  | .completed _ out err =>
    if out ≠ "" then
      match parse out with
      | .ok vulns =>
        ({ tool := "snyk", total_files := none,
           vulnerabilities := some vulns, vulnerability := none,
           total_issues := vulns.length, error := none }, some req_file)
      | .decodeError =>
        ({ tool := "snyk", total_files := none,
           vulnerabilities := some [], vulnerability := none,
           total_issues := 0,
           error := some ("Cannot parse Snyk output: " ++ (out.data.take 200).asString) },
         some req_file)
      | .excOther m =>
        ({ tool := "snyk", total_files := none,
           vulnerabilities := some [], vulnerability := none,
           total_issues := 0, error := some m }, some req_file)
    else
      ({ tool := "snyk", total_files := none,
         vulnerabilities := some [], vulnerability := none,
         total_issues := 0,
         error := some (if err = "" then "No output from Snyk" else err) },
       some req_file)
  | .timeout =>
    ({ tool := "snyk", total_files := none,
       vulnerabilities := some [], vulnerability := none,
       total_issues := 0, error := some "Timeout after 60s" }, some req_file)
  | .raised m =>
    ({ tool := "snyk", total_files := none,
       vulnerabilities := some [], vulnerability := none,
       total_issues := 0, error := some m }, some req_file)

/-- The result dictionary of the missing-manifest branch of
SnykScanner.scan_dependencies (src/tools/sca_tool.py, lines 31-37). -/
def noReqResult : ScanResultDict :=
  { tool := "snyk", total_files := none, vulnerabilities := some [],
    vulnerability := none, total_issues := 0,
    error := some "No requirements.txt found" }

/-- SnykScanner.scan_dependencies (src/tools/sca_tool.py, lines 7-95).
`tree` is the filesystem under project_path (already made absolute by the
source), `proc` the outcome of the snyk subprocess, `parse` the outcome of
JSON-decoding a given stdout text.  The second component is the manifest
path handed to the snyk command, or none when no process was run.  The
function is total: every Python branch returns a dictionary, none raises to
the caller.  Truthiness of Python strings is modelled by comparison with
the empty string. -/
def SnykScanner.scan_dependencies (project_path : String) (tree : FSTree)
    (proc : ProcOutcome) (parse : String → SnykParse) :
    ScanResultDict × Option String :=
  if reqExistsAtRoot tree then
    snykRun (osJoin project_path "requirements.txt") proc parse
  else
    match walkFindReq project_path tree with
    | some found => snykRun found proc parse
    | none => (noReqResult, none)

/-- Risk level literal of the pydantic schemas
(src/mas_core/schemas/security.py). -/
inductive RiskLevel where
  | critical
  | high
  | medium
  | low
  deriving Repr, DecidableEq

/-- SecurityIssue of src/mas_core/schemas/security.py, restricted to the
fields the orchestration code reads. -/
structure SecurityIssue where
  tool : String
  risk_level : RiskLevel
  message : String
  deriving Repr, DecidableEq

/-- LLMAnalysisResult of src/mas_core/schemas/security.py: the structured
output schema of the unification LLM. -/
structure LLMAnalysisResult where
  issues : List SecurityIssue
  overall_risk : RiskLevel
  remediation_priority : List String
  deriving Repr, DecidableEq

/-- Outcome of `llm.invoke(prompt)` inside analyze_with_llm: the external
service returned a structured analysis, or the call raised (service
unavailable, malformed output rejected by the structured-output parser,
missing API key, ...). -/
inductive LLMOutcome where
  | returns (analysis : LLMAnalysisResult)
  | raises (msg : String)
  deriving Repr, DecidableEq

/-- Python exception escaping a modelled function. -/
inductive PyExn where
  | nameError (name : String)
  | attributeError (msg : String)
  | other (msg : String)
  deriving Repr, DecidableEq

/-- The final_report dictionary built by aggregator_node
(src/mas_core/nodes.py, lines 112-122). -/
structure FinalReport where
  total_files_scanned : Nat
  sast_issues : Nat
  sca_issues : Nat
  total_issues : Nat
  overall_risk : RiskLevel
  issues : List SecurityIssue
  remediation_priority : List String
  deriving Repr, DecidableEq

/-- ScanState of src/mas_core/state.py.  The sast_results, sca_results and
final_report slots start as empty dictionaries and are later overwritten by
result dictionaries; the empty-dictionary state is modelled as none, so
`state.get(key, {}).get(inner, default)` becomes an Option read with a
default. -/
structure ScanState where
  project_path : String
  all_files : List String
  total_files : Nat
  sast_results : Option ScanResultDict
  sca_results : Option ScanResultDict
  final_report : Option FinalReport
  scan_status : List String
  deriving Repr, DecidableEq

/-- analyze_with_llm of src/mas_core/nodes.py (lines 130-186).  The body
computes the truncated findings lists and then evaluates
`format_sast_findings(sast_vulns, project_path)`; `project_path` is not
bound in this function, in its module, or as a builtin, so Python raises
NameError there, before the try block around `llm.invoke` is entered (the
call is also arity-wrong: format_sast_findings takes one parameter).  The
`llm` oracle is therefore never consulted.  Had the try block been reached
and `llm.invoke` raised, the except branch prints and falls off the end,
returning None; both behaviours are kept so the caller model can be
faithful. -/
def analyze_with_llm (sast_results sca_results : Option ScanResultDict)
    (total_files : Nat) (llm : LLMOutcome) :
    Except PyExn (Option LLMAnalysisResult) :=
  let _sast_vulns :=
    ((sast_results.bind (·.vulnerabilities)).getD []).take 20
  let _sca_vulns :=
    ((sca_results.bind (·.vulnerabilities)).getD []).take 20
  let _total := total_files
  let _llm := llm
  Except.error (PyExn.nameError "project_path")

/-- Writes returned by a graph node: the subset of ScanState keys the node
produces.  scan_status is annotated with operator.add in ScanState, so its
write is appended; every other write overwrites the slot. -/
structure NodeWrites where
  all_files : Option (List String)
  total_files : Option Nat
  sast_results : Option ScanResultDict
  sca_results : Option ScanResultDict
  final_report : Option FinalReport
  scan_status : List String
  deriving Repr, DecidableEq

/-- Empty write set. -/
def NodeWrites.none_ : NodeWrites :=
  { all_files := none, total_files := none, sast_results := none,
    sca_results := none, final_report := none, scan_status := [] }

/-- Apply one node's writes to a state (langgraph channel update: plain
channels are overwritten, the operator.add channel scan_status is
concatenated). -/
def applyWrites (st : ScanState) (w : NodeWrites) : ScanState :=
  { st with
    all_files := w.all_files.getD st.all_files
    total_files := w.total_files.getD st.total_files
    sast_results := match w.sast_results with
      | some r => some r
      | none => st.sast_results
    sca_results := match w.sca_results with
      | some r => some r
      | none => st.sca_results
    final_report := match w.final_report with
      | some r => some r
      | none => st.final_report
    scan_status := st.scan_status ++ w.scan_status }

/-- coordinator_node (src/mas_core/nodes.py, lines 19-39): runs file
discovery and records the file list and count. -/
def coordinator_node (tree : FSTree) (st : ScanState) : NodeWrites :=
  let all_files := scan_project_files st.project_path tree
  { NodeWrites.none_ with
    all_files := some all_files
    total_files := some all_files.length
    scan_status := ["ready_to_scan"] }

/-- sast_worker_node (src/mas_core/nodes.py, lines 56-72): runs
SemgrepScanner.scan_files on the discovered files. -/
def sast_worker_node (proc : ProcOutcome) (parse : String → SemParse)
    (st : ScanState) : NodeWrites :=
  { NodeWrites.none_ with
    sast_results := some (SemgrepScanner.scan_files st.all_files proc parse).1
    scan_status := ["sast_completed"] }

/-- sca_worker_node (src/mas_core/nodes.py, lines 75-89): runs
SnykScanner.scan_dependencies on the project root. -/
def sca_worker_node (tree : FSTree) (proc : ProcOutcome)
    (parse : String → SnykParse) (st : ScanState) : NodeWrites :=
  { NodeWrites.none_ with
    sca_results :=
      some (SnykScanner.scan_dependencies st.project_path tree proc parse).1
    scan_status := ["sca_completed"] }

/-- aggregator_node (src/mas_core/nodes.py, lines 92-127).  Reads both
scanner results with `state.get(..., {})`, computes the raw counts, calls
analyze_with_llm, and builds the final report from the analysis object.
When analyze_with_llm raises, the exception propagates to the caller; when
it returns None (its except branch), the attribute access
`llm_analysis.overall_risk` raises AttributeError. -/
def aggregator_node (llm : LLMOutcome) (st : ScanState) :
    Except PyExn NodeWrites :=
  let sast_results := st.sast_results
  let sca_results := st.sca_results
  let total_sast_issues := (sast_results.map (·.total_issues)).getD 0
  let total_sca_issues := (sca_results.map (·.total_issues)).getD 0
  match analyze_with_llm sast_results sca_results st.total_files llm with
  | Except.error e => Except.error e
  | Except.ok none =>
    Except.error (PyExn.attributeError
      "NoneType object has no attribute overall_risk")
  | Except.ok (some analysis) =>
    Except.ok
      { NodeWrites.none_ with
        final_report := some
          { total_files_scanned := st.total_files
            sast_issues := total_sast_issues
            sca_issues := total_sca_issues
            total_issues := total_sast_issues + total_sca_issues
            overall_risk := analysis.overall_risk
            issues := analysis.issues
            remediation_priority := analysis.remediation_priority }
        scan_status := ["completed"] }

/-- Graph topology declared by create_scan_graph (src/mas_core/graph.py,
lines 10-33): entry point coordinator, a fan-out edge to each worker, an
edge from each worker to the aggregator, and an edge from the aggregator to
the END sentinel. -/
def scanGraphEdges : List (String × String) :=
  [("coordinator", "sast_worker"), ("coordinator", "sca_worker"),
   ("sast_worker", "aggregator"), ("sca_worker", "aggregator"),
   ("aggregator", "__end__")]

/-- Entry point set by create_scan_graph. -/
def entryPointNode : String := "coordinator"

/-- Modelled from the spec: the execution engine behind
`workflow.compile()` is the langgraph library, which is not part of this
repository.  Per the spec (section 4.5 and the design notes) it executes
the graph in bulk-synchronous supersteps: every node activated in a
superstep runs to completion, then the nodes reachable by an edge from a
completed node form the next superstep.  This computes the successor
superstep of an active node set over the declared edges, dropping the END
sentinel and duplicate activations. -/
def nextActive (active : List String) : List String :=
  (((active.map fun n =>
      ((scanGraphEdges.filter fun e => e.1 = n).map (·.2))).flatten).eraseDups).filter
    (· ≠ "__end__")

/-- Modelled from the spec: the superstep schedule starting from an active
set, with fuel bounding the number of supersteps (the scan graph is
acyclic, so the fuel is never exhausted at the value used below). -/
def superstepsFrom : Nat → List String → List (List String)
  | 0, _ => []
  | _ + 1, [] => []
  | fuel + 1, active => active :: superstepsFrom fuel (nextActive active)

/-- Superstep schedule of the compiled scan graph. -/
def scanSupersteps : List (List String) :=
  superstepsFrom 8 [entryPointNode]

/-- External-world oracles consumed by one graph run. -/
structure Externals where
  tree : FSTree
  sastProc : ProcOutcome
  sastParse : String → SemParse
  scaProc : ProcOutcome
  scaParse : String → SnykParse

/-- Writes of one non-aggregator node, given the snapshot state its
superstep started from. -/
def nodeWritesOf (ex : Externals) (snapshot : ScanState) :
    String → NodeWrites
  | "coordinator" => coordinator_node ex.tree snapshot
  | "sast_worker" => sast_worker_node ex.sastProc ex.sastParse snapshot
  | "sca_worker" => sca_worker_node ex.tree ex.scaProc ex.scaParse snapshot
  | _ => NodeWrites.none_

/-- Modelled from the spec: run one superstep of the langgraph engine.
Every node of the superstep reads the same snapshot state; their writes are
applied when the superstep ends (section 4.5s join barrier). -/
def runSuperstep (ex : Externals) (st : ScanState) (nodes : List String) :
    ScanState :=
  (nodes.map (nodeWritesOf ex st)).foldl applyWrites st

/-- State visible to the aggregator superstep: the result of running the
supersteps that precede the one containing the aggregator. -/
def stateBeforeAggregation (ex : Externals) (st0 : ScanState) : ScanState :=
  (scanSupersteps.take 2).foldl (runSuperstep ex) st0

/-- CPython zipfile._extract_member entry-name sanitization on POSIX: the
member name is split on the path separator and the empty, "." and ".."
components are dropped; what remains is joined under the target directory.
zipfile.extractall applies this to every entry and rejects none of them. -/
def sanitizeParts (name : String) : List String :=
  (splitSlash name).filter fun x => x ≠ "" && x ≠ "." && x ≠ ".."

/-- Component path where extractall places the entry called name when
extracting into the target directory given by its components. -/
def extractMemberPath (target : List String) (name : String) : List String :=
  target ++ sanitizeParts name

/-- Literal resolution of an entry name against the target directory with
".." walking one component up: where the entry would land if extraction
honoured parent references instead of sanitizing them.  Used to state that
an entry is a path-traversal entry. -/
def resolveParts (target : List String) (name : String) : List String :=
  (splitSlash name).foldl
    (fun acc c =>
      if c = "" ∨ c = "." then acc
      else if c = ".." then acc.dropLast
      else acc ++ [c])
    target

/-- extract_codebase (src/api_server/api_server.py, lines 52-64), reduced to
its path behaviour: the uploaded archive is a list of entry names, the
extraction directory is `target` (the fresh `<tempdir>/project`), and the
result is the list of component paths where extractall places the entries.
The source wraps extractall in no try block and performs no entry-name
check of its own; extraction succeeds for every entry list. -/
def extract_codebase (target : List String) (entries : List String) :
    List (List String) :=
  entries.map (extractMemberPath target)

/-- One job record of the in-memory scan_results table
(src/api_server/api_server.py): the dictionary created by create_scan and
mutated by run_scan_task.  completed_at is absent until the terminal
transition writes it. -/
structure JobRecord where
  scan_id : String
  project_name : String
  status : String
  progress : Nat
  created_at : Nat
  result : Option FinalReport
  error : Option String
  completed_at : Option Nat
  deriving Repr, DecidableEq

/-- The record inserted into scan_results by create_scan
(src/api_server/api_server.py, lines 135-143). -/
def initialRecord (scan_id project_name : String) (t0 : Nat) : JobRecord :=
  { scan_id := scan_id, project_name := project_name, status := "pending",
    progress := 0, created_at := t0, result := none, error := none,
    completed_at := none }

/-- Outcome of the body of run_scan_task between the scanning transition and
the completed transition: the graph invocation returned a final report; or
an exception was raised between progress 10 and progress 30 (during
create_scan_graph or the initial-state construction); or the
`app_graph.invoke` call raised after progress 30. -/
inductive GraphRunOutcome where
  | success (report : FinalReport)
  | failBeforeGraph (msg : String)
  | failInGraph (msg : String)
  deriving Repr, DecidableEq

/-- run_scan_task (src/api_server/api_server.py, lines 66-99) as the trace
of job-table states its assignments produce, starting from the record r0
that create_scan stored.  Each list element is the record after one Python
assignment, in source order; tEnd is the completion wall-clock reading. -/
def run_scan_task (r0 : JobRecord) (outcome : GraphRunOutcome)
    (tEnd : Nat) : List JobRecord :=
  let r1 := { r0 with status := "scanning" }
  let r2 := { r1 with progress := 10 }
  match outcome with
  | .failBeforeGraph m =>
    let r3 := { r2 with status := "failed" }
    let r4 := { r3 with error := some m }
    let r5 := { r4 with completed_at := some tEnd }
    [r0, r1, r2, r3, r4, r5]
  | .success rep =>
    let r3 := { r2 with progress := 30 }
    let r4 := { r3 with status := "completed" }
    let r5 := { r4 with progress := 100 }
    let r6 := { r5 with result := some rep }
    let r7 := { r6 with completed_at := some tEnd }
    [r0, r1, r2, r3, r4, r5, r6, r7]
  | .failInGraph m =>
    let r3 := { r2 with progress := 30 }
    let r4 := { r3 with status := "failed" }
    let r5 := { r4 with error := some m }
    let r6 := { r5 with completed_at := some tEnd }
    [r0, r1, r2, r3, r4, r5, r6]

/-- Outcome of extract_codebase inside create_scan: a workspace path, or an
exception (corrupt archive, filesystem failure). -/
inductive ExtractOutcome where
  | extracted (projectPath : String)
  | failedWith (msg : String)
  deriving Repr, DecidableEq

/-- HTTP-level result of the create_scan endpoint. -/
inductive ApiResult where
  | accepted (scan_id status message : String)
  | httpError (code : Nat) (detail : String)
  deriving Repr, DecidableEq

/-- create_scan (src/api_server/api_server.py, lines 112-153): validates the
.zip suffix, extracts the archive, and only then inserts the job record and
schedules run_scan_task.  Returns the new job table, the list of scheduled
background tasks as (scan_id, project_path) pairs, and the HTTP result.
Only extract_codebase can raise inside the try block; the except handler
converts it into a 500 response. -/
def create_scan (table : List (String × JobRecord))
    (filename project_name scan_id : String) (ext : ExtractOutcome)
    (t0 : Nat) :
    List (String × JobRecord) × List (String × String) × ApiResult :=
  if ¬ strEndsWith filename ".zip" then
    (table, [], ApiResult.httpError 400 "Only ZIP files are accepted")
  else
    match ext with
    | .failedWith m =>
      (table, [], ApiResult.httpError 500 ("Failed to start scan: " ++ m))
    | .extracted projectPath =>
      (table ++ [(scan_id, initialRecord scan_id project_name t0)],
       [(scan_id, projectPath)],
       ApiResult.accepted scan_id "pending"
         ("Scan started for " ++ project_name))

/-- C1: the claim says aggregator_node degrades gracefully when the
unification service is unavailable and never raises to its caller.  The
code cannot: analyze_with_llm dereferences the unbound name project_path
before its try block, so aggregator_node raises NameError on every state
and every service outcome — in particular when the service is unavailable —
and the job is marked failed, never completed.  This theorem evaluates the
embedded code on all inputs, including the failing one from RESULTS. -/
theorem aggregator_node_raises_nameError (llm : LLMOutcome) (st : ScanState) :
    aggregator_node llm st = Except.error (PyExn.nameError "project_path") :=
  rfl

/-- C2 counterexample: the archive whose single entry is the traversal name
"../evil.py" — an entry that resolves outside the target directory — is not
rejected: extract_codebase succeeds and places the file inside the target,
so no ExtractionError interrupts the pipeline (the source has no such
exception type and wraps extractall in no guard). -/
theorem extract_codebase_traversal_not_rejected :
    resolveParts ["tmp", "mas_scan_x", "project"] "../evil.py" =
      ["tmp", "mas_scan_x", "evil.py"] ∧
    (["tmp", "mas_scan_x", "project"].isPrefixOf
      ["tmp", "mas_scan_x", "evil.py"]) = false ∧
    extract_codebase ["tmp", "mas_scan_x", "project"] ["../evil.py"] =
      [["tmp", "mas_scan_x", "project", "evil.py"]] := by
  decide

/-- C2 amended: extract_codebase never rejects an archive for path
traversal; instead CPython extractall sanitizes every entry name, so every
extracted file is placed under the target directory and its relative
placement contains no parent reference. -/
theorem extract_codebase_places_inside_target (target : List String)
    (entries : List String) (p : List String)
    (h : p ∈ extract_codebase target entries) :
    target.isPrefixOf p = true ∧ ".." ∉ p.drop target.length := by
  obtain ⟨e, _, rfl⟩ := List.mem_map.mp h
  refine ⟨?_, ?_⟩
  · rw [List.isPrefixOf_iff_prefix]
    exact List.prefix_append target (sanitizeParts e)
  · rw [extractMemberPath, List.drop_left]
    intro hmem
    have := List.of_mem_filter hmem
    simp at this

/-- C2 amended, witness at a concrete input. -/
theorem extract_codebase_places_inside_target_witness :
    (["a"].isPrefixOf ["a", "b.py"]) = true ∧
      ".." ∉ ["a", "b.py"].drop ["a"].length :=
  extract_codebase_places_inside_target ["a"] ["b.py"] ["a", "b.py"]
    (by decide)

/-- C8: SemgrepScanner.scan_files on an empty file list returns the
zero-issue, error-free result without invoking the external process (the
second component is the ran-external-process flag). -/
theorem scan_files_empty_input (proc : ProcOutcome)
    (parse : String → SemParse) :
    SemgrepScanner.scan_files [] proc parse =
      ({ tool := "semgrep", total_files := some 0,
         vulnerabilities := some [], vulnerability := none,
         total_issues := 0, error := none }, false) :=
  rfl

/-- C9: when extract_codebase raises during create_scan, the job table is
returned unchanged, no background task is scheduled, and the caller gets a
500 error instead of a scan id. -/
theorem create_scan_extraction_failure_atomic
    (table : List (String × JobRecord))
    (filename project_name scan_id m : String) (t0 : Nat)
    (h : strEndsWith filename ".zip" = true) :
    create_scan table filename project_name scan_id
        (ExtractOutcome.failedWith m) t0 =
      (table, [], ApiResult.httpError 500 ("Failed to start scan: " ++ m)) := by
  simp [create_scan, h]

/-- C9 witness at a concrete input. -/
theorem create_scan_extraction_failure_atomic_witness :
    create_scan [] "proj.zip" "proj" "id-1"
        (ExtractOutcome.failedWith "bad zip") 0 =
      ([], [], ApiResult.httpError 500 "Failed to start scan: bad zip") :=
  create_scan_extraction_failure_atomic [] "proj.zip" "proj" "id-1"
    "bad zip" 0 (by decide)

/-- C4: on every outcome path of both adapters, total_issues equals the
length of the findings sequence the result carries under the documented
vulnerabilities key (read with the same empty default every consumer in the
repository uses; the Semgrep timeout and generic-exception branches write
the misspelled vulnerability key instead, leaving the documented key
absent, which reads as the empty list and still matches their zero
total_issues). -/
theorem total_issues_eq_findings_length :
    (∀ (files : List String) (proc : ProcOutcome)
       (parse : String → SemParse),
       ((SemgrepScanner.scan_files files proc parse).1).total_issues =
         (((SemgrepScanner.scan_files files proc parse).1).vulnerabilities.getD
           []).length) ∧
    (∀ (path : String) (tree : FSTree) (proc : ProcOutcome)
       (parse : String → SnykParse),
       ((SnykScanner.scan_dependencies path tree proc parse).1).total_issues =
         (((SnykScanner.scan_dependencies path tree proc
             parse).1).vulnerabilities.getD []).length) := by
  constructor
  · intro files proc parse
    unfold SemgrepScanner.scan_files
    split
    · rfl
    · rcases proc with ⟨rc, out, err⟩ | _ | m
      · by_cases h : rc = 0 ∨ rc = 1
        · simp only [h, if_pos]
          rcases parse out with vulns | m <;> rfl
        · simp only [h, if_neg, not_false_eq_true]
          rfl
      · rfl
      · rfl
  · intro path tree proc parse
    have hrun : ∀ req, ((snykRun req proc parse).1).total_issues =
        (((snykRun req proc parse).1).vulnerabilities.getD []).length := by
      intro req
      unfold snykRun
      rcases proc with ⟨rc, out, err⟩ | _ | m
      · by_cases h : out = ""
        · simp only [h]
          rfl
        · simp only [if_neg, h, ne_eq, not_false_eq_true, ite_true]
          rcases parse out with vulns | _ | m <;> rfl
      · rfl
      · rfl
    unfold SnykScanner.scan_dependencies
    split
    · exact hrun _
    · split
      · exact hrun _
      · rfl

/-- C3 counterexample: SnykScanner judges success by stdout alone.  For the
enumerated outcome "non-zero/unexpected exit" — here exit code 2 with
parseable JSON on stdout — scan_dependencies returns a ScanResult whose
error field is null, not the populated error field the claim requires. -/
theorem snyk_unexpected_exit_null_error :
    ((SnykScanner.scan_dependencies "/proj"
        (FSTree.mk ["requirements.txt"] FSDirs.nil)
        (ProcOutcome.completed 2 "{}" "snyk error")
        (fun _ => SnykParse.ok [])).1).error = none := rfl

/-- Semgrep adapter soft-failure outcomes: timeout, raised invocation, exit
code outside the accepted pair, or an exception while parsing stdout of an
accepted exit. -/
def semSoftOutcome (proc : ProcOutcome) (parse : String → SemParse) : Prop :=
  proc = ProcOutcome.timeout ∨
  (∃ m, proc = ProcOutcome.raised m) ∨
  (∃ rc out err, proc = ProcOutcome.completed rc out err ∧
    (¬ (rc = 0 ∨ rc = 1) ∨ ∃ m, parse out = SemParse.exc m))

/-- Snyk adapter soft-failure outcomes: timeout, raised invocation, empty
stdout, unparseable or otherwise unusable stdout, or no manifest found
anywhere under the root. -/
def snykSoftOutcome (path : String) (tree : FSTree) (proc : ProcOutcome)
    (parse : String → SnykParse) : Prop :=
  proc = ProcOutcome.timeout ∨
  (∃ m, proc = ProcOutcome.raised m) ∨
  (∃ rc err, proc = ProcOutcome.completed rc "" err) ∨
  (∃ rc out err, proc = ProcOutcome.completed rc out err ∧ out ≠ "" ∧
    (parse out = SnykParse.decodeError ∨
     ∃ m, parse out = SnykParse.excOther m)) ∨
  (reqExistsAtRoot tree = false ∧ walkFindReq path tree = none)

/-- C3 amended: both adapters are total — every outcome is returned as a
ScanResult, never raised.  SemgrepScanner returns zero findings and a
populated error field on every soft-failure outcome (timeout, raised
invocation, unexpected exit, unparseable output).  SnykScanner does the
same on timeout, raised invocation, empty stdout, unusable stdout and
missing manifest, but it ignores the exit code: an unexpected exit whose
stdout still parses is treated as success and may carry a null error
field. -/
theorem scanners_soft_failure_contract :
    (∀ (files : List String) (proc : ProcOutcome)
       (parse : String → SemParse),
       files ≠ [] → semSoftOutcome proc parse →
       (((SemgrepScanner.scan_files files proc parse).1).vulnerabilities.getD
           [] = [] ∧
        ((SemgrepScanner.scan_files files proc parse).1).error ≠ none)) ∧
    (∀ (path : String) (tree : FSTree) (proc : ProcOutcome)
       (parse : String → SnykParse),
       snykSoftOutcome path tree proc parse →
       (((SnykScanner.scan_dependencies path tree proc
             parse).1).vulnerabilities.getD [] = [] ∧
        ((SnykScanner.scan_dependencies path tree proc parse).1).error ≠
          none)) := by
  constructor
  · intro files proc parse hne hsoft
    unfold SemgrepScanner.scan_files
    rw [if_neg (by simpa using hne)]
    rcases hsoft with rfl | ⟨m, rfl⟩ | ⟨rc, out, err, rfl, hbad⟩
    · exact ⟨rfl, by simp⟩
    · exact ⟨rfl, by simp⟩
    · dsimp only
      rcases hbad with hrc | ⟨m, hm⟩
      · rw [if_neg hrc]
        exact ⟨rfl, by simp⟩
      · by_cases hrc : rc = 0 ∨ rc = 1
        · rw [if_pos hrc, hm]
          exact ⟨rfl, by simp⟩
        · rw [if_neg hrc]
          exact ⟨rfl, by simp⟩
  · intro path tree proc parse hsoft
    rcases hsoft with rfl | ⟨m, rfl⟩ | ⟨rc, err, rfl⟩ | ⟨rc, out, err, rfl, hne, hparse⟩ | ⟨hroot, hwalk⟩
    · unfold SnykScanner.scan_dependencies
      split
      · exact ⟨rfl, by simp [snykRun]⟩
      · split
        · exact ⟨rfl, by simp [snykRun]⟩
        · exact ⟨rfl, by simp [noReqResult]⟩
    · unfold SnykScanner.scan_dependencies
      split
      · exact ⟨rfl, by simp [snykRun]⟩
      · split
        · exact ⟨rfl, by simp [snykRun]⟩
        · exact ⟨rfl, by simp [noReqResult]⟩
    · have hrun : ((snykRun (osJoin path "requirements.txt")
          (ProcOutcome.completed rc "" err) parse).1).vulnerabilities.getD []
            = [] ∧
          ∀ req, ((snykRun req (ProcOutcome.completed rc "" err)
            parse).1).error ≠ none := by
        constructor
        · simp [snykRun]
        · intro req
          simp only [snykRun, ne_eq, not_true_eq_false, ite_false]
          split <;> simp
      unfold SnykScanner.scan_dependencies
      split
      · exact ⟨by simp [snykRun], hrun.2 _⟩
      · split
        · exact ⟨by simp [snykRun], hrun.2 _⟩
        · exact ⟨rfl, by simp [noReqResult]⟩
    · have hrun : ∀ req,
          ((snykRun req (ProcOutcome.completed rc out err)
              parse).1).vulnerabilities.getD [] = [] ∧
          ((snykRun req (ProcOutcome.completed rc out err)
              parse).1).error ≠ none := by
        intro req
        rcases hparse with hp | ⟨m, hp⟩ <;>
          simp [snykRun, if_neg, hne, hp]
      unfold SnykScanner.scan_dependencies
      split
      · exact hrun _
      · split
        · exact hrun _
        · exact ⟨rfl, by simp [noReqResult]⟩
    · unfold SnykScanner.scan_dependencies
      rw [if_neg (by simp [hroot]), hwalk]
      exact ⟨rfl, by simp [noReqResult]⟩

/-- C3 amended, witness: the Semgrep timeout outcome on one file and the
Snyk missing-manifest outcome on an empty tree. -/
theorem scanners_soft_failure_contract_witness :
    (((SemgrepScanner.scan_files ["a.py"] ProcOutcome.timeout
        (fun _ => SemParse.ok [])).1).vulnerabilities.getD [] = [] ∧
     ((SemgrepScanner.scan_files ["a.py"] ProcOutcome.timeout
        (fun _ => SemParse.ok [])).1).error ≠ none) ∧
    (((SnykScanner.scan_dependencies "/p" (FSTree.mk [] FSDirs.nil)
        ProcOutcome.timeout (fun _ => SnykParse.ok [])).1).vulnerabilities.getD
          [] = [] ∧
     ((SnykScanner.scan_dependencies "/p" (FSTree.mk [] FSDirs.nil)
        ProcOutcome.timeout (fun _ => SnykParse.ok [])).1).error ≠ none) :=
  ⟨scanners_soft_failure_contract.1 ["a.py"] ProcOutcome.timeout
      (fun _ => SemParse.ok []) (by decide) (Or.inl rfl),
   scanners_soft_failure_contract.2 "/p" (FSTree.mk [] FSDirs.nil)
      ProcOutcome.timeout (fun _ => SnykParse.ok []) (Or.inl rfl)⟩

/-- Collapse consecutive duplicates in a status sequence, exposing the
order of distinct status transitions. -/
def collapseRuns : List String → List String
  | [] => []
  | [a] => [a]
  | a :: b :: rest =>
    if a = b then collapseRuns (b :: rest) else a :: collapseRuns (b :: rest)

/-- Consecutive pairs of a trace. -/
def adjacentPairs (tr : List JobRecord) : List (JobRecord × JobRecord) :=
  tr.zip (tr.drop 1)

/-- The job-lifecycle contract of claim C6 over a trace of job-record
states: the distinct status transitions follow exactly
pending to scanning to a terminal status (so no status is revisited);
progress never decreases and stays within 0-100; a result is present only
while the status is completed and an error only while it is failed; the
completion timestamp is written exactly once, and at the write the record
is already terminal. -/
def jobLifecycleOk (tr : List JobRecord) : Prop :=
  (collapseRuns (tr.map (·.status)) = ["pending", "scanning", "completed"] ∨
   collapseRuns (tr.map (·.status)) = ["pending", "scanning", "failed"]) ∧
  List.Chain' (fun a b => a.progress ≤ b.progress) tr ∧
  (∀ r ∈ tr, r.progress ≤ 100) ∧
  (∀ r ∈ tr, r.result.isSome → r.status = "completed") ∧
  (∀ r ∈ tr, r.error.isSome → r.status = "failed") ∧
  ((adjacentPairs tr).filter
      (fun ab => !ab.1.completed_at.isSome && ab.2.completed_at.isSome)).length
    = 1 ∧
  (∀ ab ∈ adjacentPairs tr,
    ab.1.completed_at.isSome = false → ab.2.completed_at.isSome = true →
      ab.2.status = "completed" ∨ ab.2.status = "failed")

/-- C6: for every job id, name, creation time, graph outcome and completion
time, the trace of table states written by create_scan and run_scan_task
satisfies the full job-lifecycle contract. -/
theorem run_scan_task_lifecycle (scan_id project_name : String) (t0 : Nat)
    (outcome : GraphRunOutcome) (tEnd : Nat) :
    jobLifecycleOk
      (run_scan_task (initialRecord scan_id project_name t0) outcome tEnd) := by
  rcases outcome with rep | m | m <;>
    simp [jobLifecycleOk, run_scan_task, initialRecord, collapseRuns,
      adjacentPairs, List.Chain']

/-- C6 witness at a concrete successful run. -/
theorem run_scan_task_lifecycle_witness :
    jobLifecycleOk
      (run_scan_task (initialRecord "id-1" "proj" 3)
        (GraphRunOutcome.success
          { total_files_scanned := 1, sast_issues := 0, sca_issues := 0,
            total_issues := 0, overall_risk := RiskLevel.low, issues := [],
            remediation_priority := [] })
        9) :=
  run_scan_task_lifecycle "id-1" "proj" 3
    (GraphRunOutcome.success
      { total_files_scanned := 1, sast_issues := 0, sca_issues := 0,
        total_issues := 0, overall_risk := RiskLevel.low, issues := [],
        remediation_priority := [] })
    9

/-- C5: the superstep schedule computed from the edges declared by
create_scan_graph runs the coordinator alone, then both scanner workers in
one superstep, then the aggregator alone — so aggregation begins only after
both workers have returned, and each node runs exactly once with no early
exit.  Moreover the state the aggregator superstep reads always carries
both scanner results: whatever the external outcomes — including soft
failures of either or both adapters — sast_results and sca_results hold
the full adapter results computed from the discovered files, so neither
branch cancels the other and aggregation never observes a missing
result. -/
theorem aggregation_after_join_barrier (ex : Externals) (st0 : ScanState) :
    scanSupersteps =
      [["coordinator"], ["sast_worker", "sca_worker"], ["aggregator"]] ∧
    (stateBeforeAggregation ex st0).sast_results =
      some (SemgrepScanner.scan_files
        (scan_project_files st0.project_path ex.tree) ex.sastProc
        ex.sastParse).1 ∧
    (stateBeforeAggregation ex st0).sca_results =
      some (SnykScanner.scan_dependencies st0.project_path ex.tree
        ex.scaProc ex.scaParse).1 := by
  refine ⟨by decide, ?_, ?_⟩ <;>
    simp [stateBeforeAggregation, scanSupersteps, superstepsFrom, nextActive,
      entryPointNode, scanGraphEdges, runSuperstep, nodeWritesOf,
      coordinator_node, sast_worker_node, sca_worker_node, applyWrites,
      NodeWrites.none_]

/-- Join a directory-component chain and a filename under a root path. -/
def joinUnder (path : String) (comps : List String) (fname : String) :
    String :=
  osJoin (comps.foldl osJoin path) fname

mutual
/-- Every path produced by walkScan decomposes as the root path, a chain of
directory components none of which is excluded, and a filename with an
allowed extension. -/
theorem walkScan_sound (path : String) (t : FSTree) (p : String)
    (h : p ∈ walkScan path t) :
    ∃ comps fname, p = joinUnder path comps fname ∧
      (∀ c ∈ comps, c ∉ ignore_dirs) ∧
      ∃ ext ∈ file_extensions, strEndsWith fname ext = true := by
  cases t with
  | mk files subdirs =>
    rw [walkScan] at h
    rcases List.mem_append.mp h with h1 | h2
    · obtain ⟨f, hf, rfl⟩ := List.mem_map.mp h1
      obtain ⟨-, hext⟩ := List.mem_filter.mp hf
      exact ⟨[], f, rfl, by simp, List.any_eq_true.mp hext⟩
    · exact walkScanDirs_sound path subdirs p h2

/-- walkScan_sound, lifted over a subdirectory list. -/
theorem walkScanDirs_sound (path : String) (ds : FSDirs) (p : String)
    (h : p ∈ walkScanDirs path ds) :
    ∃ comps fname, p = joinUnder path comps fname ∧
      (∀ c ∈ comps, c ∉ ignore_dirs) ∧
      ∃ ext ∈ file_extensions, strEndsWith fname ext = true := by
  cases ds with
  | nil => rw [walkScanDirs] at h; exact absurd h (List.not_mem_nil p)
  | cons d t rest =>
    rw [walkScanDirs] at h
    rcases List.mem_append.mp h with h1 | h2
    · by_cases hd : ignore_dirs.contains d
      · rw [if_pos hd] at h1
        exact absurd h1 (List.not_mem_nil p)
      · rw [if_neg hd] at h1
        obtain ⟨comps, fname, rfl, hc, hext⟩ :=
          walkScan_sound (osJoin path d) t p h1
        refine ⟨d :: comps, fname, rfl, ?_, hext⟩
        intro c hcmem
        rcases List.mem_cons.mp hcmem with rfl | hcm
        · simpa using hd
        · exact hc c hcm
    · exact walkScanDirs_sound path rest p h2
end

/-- C7: every path returned by file discovery lies under the root via a
chain of directories none of which has an excluded name, and ends in an
allowed source extension; an empty tree yields the empty sequence (not an
error), and so does an all-excluded tree such as a root with one
non-source file and one excluded subdirectory. -/
theorem scan_project_files_spec :
    (∀ (path : String) (tree : FSTree) (p : String),
       p ∈ scan_project_files path tree →
       ∃ comps fname, p = joinUnder path comps fname ∧
         (∀ c ∈ comps, c ∉ ignore_dirs) ∧
         ∃ ext ∈ file_extensions, strEndsWith fname ext = true) ∧
    (∀ path : String,
       scan_project_files path (FSTree.mk [] FSDirs.nil) = []) ∧
    scan_project_files "root"
      (FSTree.mk ["README.md"]
        (FSDirs.cons "node_modules" (FSTree.mk ["x.py"] FSDirs.nil)
          FSDirs.nil)) = [] := by
  refine ⟨fun path tree p h => walkScan_sound path tree p h, ?_, by decide⟩
  intro path
  rw [scan_project_files, walkScan, walkScanDirs]
  rfl

/-- C7 witness: one source file directly under the root. -/
theorem scan_project_files_spec_witness :
    (∃ comps fname, "proj/a.py" = joinUnder "proj" comps fname ∧
      (∀ c ∈ comps, c ∉ ignore_dirs) ∧
      ∃ ext ∈ file_extensions, strEndsWith fname ext = true) ∧
    scan_project_files "q" (FSTree.mk [] FSDirs.nil) = [] :=
  ⟨scan_project_files_spec.1 "proj" (FSTree.mk ["a.py"] FSDirs.nil)
      "proj/a.py" (by decide),
   scan_project_files_spec.2.1 "q"⟩

mutual
/-- Whether any directory of the tree, the root included, contains a file
named requirements.txt. -/
def hasReqFile : FSTree → Bool
  | .mk files subdirs =>
    files.contains "requirements.txt" || hasReqFileDirs subdirs

/-- hasReqFile over a subdirectory list. -/
def hasReqFileDirs : FSDirs → Bool
  | .nil => false
  | .cons _ t rest => hasReqFile t || hasReqFileDirs rest
end

mutual
/-- The walk search comes back empty exactly when no directory of the tree
contains a requirements.txt file. -/
theorem walkFindReq_none_iff (path : String) (t : FSTree) :
    walkFindReq path t = none ↔ hasReqFile t = false := by
  cases t with
  | mk files subdirs =>
    rw [walkFindReq, hasReqFile]
    by_cases hf : files.contains "requirements.txt"
    · rw [if_pos hf, hf]
      simp
    · rw [if_neg hf, walkFindReqDirs_none_iff path subdirs]
      rw [Bool.not_eq_true] at hf
      rw [hf]
      simp

/-- walkFindReq_none_iff over a subdirectory list. -/
theorem walkFindReqDirs_none_iff (path : String) (ds : FSDirs) :
    walkFindReqDirs path ds = none ↔ hasReqFileDirs ds = false := by
  cases ds with
  | nil => rw [walkFindReqDirs, hasReqFileDirs]; simp
  | cons d t rest =>
    rw [walkFindReqDirs, hasReqFileDirs]
    cases hw : walkFindReq (osJoin path d) t with
    | some p =>
      have : hasReqFile t = true := by
        by_contra hc
        rw [Bool.not_eq_true] at hc
        rw [(walkFindReq_none_iff (osJoin path d) t).mpr hc] at hw
        exact Option.noConfusion hw
      rw [this]
      simp
    | none =>
      have := (walkFindReq_none_iff (osJoin path d) t).mp hw
      rw [this]
      simp
      exact walkFindReqDirs_none_iff path rest
end

/-- snykRun always records the manifest path it was handed: every branch
returns it as the second component. -/
theorem snykRun_snd (req : String) (proc : ProcOutcome)
    (parse : String → SnykParse) : (snykRun req proc parse).2 = some req := by
  rcases proc with ⟨rc, out, err⟩ | _ | m
  · rw [snykRun]
    split
    · rcases parse out with vulns | _ | m <;> rfl
    · rfl
  · rfl
  · rfl

/-- C10: the no-scan branch of scan_dependencies (second component none) is
taken only when no requirements.txt file exists anywhere under the root,
and it is exactly the "No requirements.txt found" soft-error result;
conversely, when the root-level existence probe fails but a manifest does
exist somewhere in the tree, the scanner runs on the first manifest in walk
order instead of reporting one missing. -/
theorem scan_dependencies_manifest_search :
    (∀ (path : String) (tree : FSTree) (proc : ProcOutcome)
       (parse : String → SnykParse),
       (SnykScanner.scan_dependencies path tree proc parse).2 = none →
       (SnykScanner.scan_dependencies path tree proc parse).1 = noReqResult ∧
         hasReqFile tree = false) ∧
    (∀ (path : String) (tree : FSTree) (proc : ProcOutcome)
       (parse : String → SnykParse),
       reqExistsAtRoot tree = false → hasReqFile tree = true →
       (SnykScanner.scan_dependencies path tree proc parse).2 =
           walkFindReq path tree ∧
         walkFindReq path tree ≠ none) := by
  constructor
  · intro path tree proc parse h
    unfold SnykScanner.scan_dependencies at h ⊢
    by_cases hroot : reqExistsAtRoot tree
    · rw [if_pos hroot] at h
      rw [snykRun_snd] at h
      exact Option.noConfusion h
    · rw [if_neg hroot] at h ⊢
      cases hw : walkFindReq path tree with
      | some found =>
        rw [hw] at h
        dsimp only at h
        rw [snykRun_snd] at h
        exact Option.noConfusion h
      | none =>
        exact ⟨rfl, (walkFindReq_none_iff path tree).mp hw⟩
  · intro path tree proc parse hroot hreq
    have hw : walkFindReq path tree ≠ none := by
      intro hc
      rw [(walkFindReq_none_iff path tree).mp hc] at hreq
      exact Bool.noConfusion hreq
    refine ⟨?_, hw⟩
    unfold SnykScanner.scan_dependencies
    rw [if_neg (by rw [hroot]; exact Bool.false_ne_true)]
    cases hfound : walkFindReq path tree with
    | some found => exact snykRun_snd found proc parse
    | none => exact absurd hfound hw

/-- C10 witness: the no-scan branch on an empty tree, and the walk search on
a tree whose only manifest sits in a subdirectory. -/
theorem scan_dependencies_manifest_search_witness :
    ((SnykScanner.scan_dependencies "/p" (FSTree.mk [] FSDirs.nil)
        ProcOutcome.timeout (fun _ => SnykParse.ok [])).1 = noReqResult ∧
      hasReqFile (FSTree.mk [] FSDirs.nil) = false) ∧
    ((SnykScanner.scan_dependencies "/p"
          (FSTree.mk []
            (FSDirs.cons "sub" (FSTree.mk ["requirements.txt"] FSDirs.nil)
              FSDirs.nil))
          ProcOutcome.timeout (fun _ => SnykParse.ok [])).2 =
        walkFindReq "/p"
          (FSTree.mk []
            (FSDirs.cons "sub" (FSTree.mk ["requirements.txt"] FSDirs.nil)
              FSDirs.nil)) ∧
      walkFindReq "/p"
          (FSTree.mk []
            (FSDirs.cons "sub" (FSTree.mk ["requirements.txt"] FSDirs.nil)
              FSDirs.nil)) ≠ none) :=
  ⟨scan_dependencies_manifest_search.1 "/p" (FSTree.mk [] FSDirs.nil)
      ProcOutcome.timeout (fun _ => SnykParse.ok []) (by decide),
   scan_dependencies_manifest_search.2 "/p"
      (FSTree.mk []
        (FSDirs.cons "sub" (FSTree.mk ["requirements.txt"] FSDirs.nil)
          FSDirs.nil))
      ProcOutcome.timeout (fun _ => SnykParse.ok []) (by decide) (by decide)⟩

end SecurityMas
